import Mathlib

/-
Shallow embedding of the EGX100 paper-trading repository
(paper_trading.py, technical_analysis.py, config.py).

Python floats are modelled as exact rationals; Python round(x, ndigits)
(round-half-to-even) is modelled exactly on rationals by rnd below.
Wall-clock fields (entry_time, exit_time, timestamp), display-only fields
(company_name, arabic_name, signal_confidence, reasons, the indicator dict
entries that are only rendered) and file persistence are omitted: they are
I/O and presentation metadata that no verified property reads.
-/

namespace EGX100

/-- Python round-half-to-even of a rational, as an integer. -/
def rnd (x : ℚ) : ℤ :=
  if x - ⌊x⌋ < 1/2 then ⌊x⌋
  else if x - ⌊x⌋ > 1/2 then ⌊x⌋ + 1
  else if ⌊x⌋ % 2 = 0 then ⌊x⌋ else ⌊x⌋ + 1

/-- Python round(x, 2). -/
def round2 (x : ℚ) : ℚ := (rnd (x * 100) : ℚ) / 100

/-- Python round(x, 1). -/
def round1 (x : ℚ) : ℚ := (rnd (x * 10) : ℚ) / 10

/-- Python round(x, 4). -/
def round4 (x : ℚ) : ℚ := (rnd (x * 10000) : ℚ) / 10000

/-- Python int(x): truncation toward zero. -/
def pyInt (x : ℚ) : ℤ := if 0 ≤ x then ⌊x⌋ else -⌊-x⌋

/-- paper_trading.TradeStatus. The Arabic display strings of the Python enum
are irrelevant to the state machine; only the variant identity is kept. -/
inductive TradeStatus where
  | OPEN
  | CLOSED_PROFIT
  | CLOSED_LOSS
  | CLOSED_MANUAL
deriving DecidableEq

/-- paper_trading.Trade. direction is the raw Python string ("BUY" / "SELL"),
compared exactly as the source compares it. -/
structure Trade where
  id : Nat
  ticker : String
  direction : String
  entry_price : ℚ
  current_price : ℚ
  stop_loss : ℚ
  take_profit : ℚ
  quantity : ℤ
  investment_amount : ℚ
  exit_price : Option ℚ
  status : TradeStatus
  pnl : ℚ
  pnl_percent : ℚ
deriving DecidableEq

/-- The mutable state of PaperTradingSystem: capital plus the trade history
list and the ticker-indexed dict of OPEN trades (an association list whose
keys the operations keep unique, as a Python dict does). -/
structure PTState where
  initial_capital : ℚ
  current_capital : ℚ
  trades : List Trade
  open_trades : List (String × Trade)
deriving DecidableEq

/-- PaperTradingSystem.default_trade_amount. -/
def default_trade_amount : ℚ := 1000

/-- A freshly constructed PaperTradingSystem (no persisted files). -/
def initState (initial_capital : ℚ) : PTState :=
  { initial_capital := initial_capital
    current_capital := initial_capital
    trades := []
    open_trades := [] }

/-- Dict lookup in the open-trades index. -/
def lookupT (k : String) : List (String × Trade) → Option Trade
  | [] => none
  | p :: ps => if p.1 = k then some p.2 else lookupT k ps

/-- The investment actually used by open_trade: Python evaluates
investment_amount or self.default_trade_amount, and both None and 0 are
falsy, so both are replaced by the default. -/
def effectiveInvestment : Option ℚ → ℚ
  | none => default_trade_amount
  | some v => if v = 0 then default_trade_amount else v

/-- PaperTradingSystem.open_trade. Returns the Python return value together
with the state after the call. -/
def open_trade (s : PTState) (ticker : String) (entry_price stop_loss take_profit : ℚ)
    (direction : String) (investment_amount : Option ℚ) : Option Trade × PTState :=
  if (lookupT ticker s.open_trades).isSome then (none, s)
  else
    let investment := effectiveInvestment investment_amount
    if investment > s.current_capital then (none, s)
    else
      let quantity := pyInt (investment / entry_price)
      if quantity ≤ 0 then (none, s)
      else
        let actual_investment := (quantity : ℚ) * entry_price
        let trade : Trade :=
          { id := s.trades.length + 1
            ticker := ticker
            direction := direction
            entry_price := round2 entry_price
            current_price := round2 entry_price
            stop_loss := round2 stop_loss
            take_profit := round2 take_profit
            quantity := quantity
            investment_amount := round2 actual_investment
            exit_price := none
            status := TradeStatus.OPEN
            pnl := 0
            pnl_percent := 0 }
        (some trade,
          { s with
              current_capital := s.current_capital - actual_investment
              trades := s.trades ++ [trade]
              open_trades := s.open_trades ++ [(ticker, trade)] })

/-- The in-place mutation at the start of update_trade_price: current_price,
pnl and pnl_percent recomputed from the new price with the direction-aware
formulas. -/
def markPrice (trade : Trade) (current_price : ℚ) : Trade :=
  if trade.direction = "BUY" then
    { trade with
        current_price := round2 current_price
        pnl := round2 ((current_price - trade.entry_price) * trade.quantity)
        pnl_percent := round2 ((current_price - trade.entry_price) / trade.entry_price * 100) }
  else
    { trade with
        current_price := round2 current_price
        pnl := round2 ((trade.entry_price - current_price) * trade.quantity)
        pnl_percent := round2 ((trade.entry_price - current_price) / trade.entry_price * 100) }

/-- Python mutates one Trade object shared by self.trades and
self.open_trades. Ids are assigned sequentially on append and the history is
never reordered, so the object sits at index id - 1 of trades and at its
ticker key of open_trades; writeTrade realizes the shared mutation. -/
def writeTrade (s : PTState) (k : String) (t : Trade) : PTState :=
  { s with
      trades := s.trades.set (t.id - 1) t
      open_trades := s.open_trades.map fun p => if p.1 = k then (p.1, t) else p }

/-- PaperTradingSystem.close_trade. The mutated object is written back to the
history and its key deleted from the open index. -/
def close_trade (s : PTState) (ticker : String) (exit_price : ℚ) (reason : String) :
    Option Trade × PTState :=
  match lookupT ticker s.open_trades with
  | none => (none, s)
  | some trade =>
    let pnl :=
      if trade.direction = "BUY" then round2 ((exit_price - trade.entry_price) * trade.quantity)
      else round2 ((trade.entry_price - exit_price) * trade.quantity)
    let pnlPct :=
      if trade.direction = "BUY" then
        round2 ((exit_price - trade.entry_price) / trade.entry_price * 100)
      else round2 ((trade.entry_price - exit_price) / trade.entry_price * 100)
    let status :=
      if reason = "STOP_LOSS" ∨ pnl < 0 then TradeStatus.CLOSED_LOSS
      else if reason = "TAKE_PROFIT" ∨ pnl > 0 then TradeStatus.CLOSED_PROFIT
      else TradeStatus.CLOSED_MANUAL
    let t : Trade :=
      { trade with
          exit_price := some (round2 exit_price)
          current_price := round2 exit_price
          pnl := pnl
          pnl_percent := pnlPct
          status := status }
    (some t,
      { s with
          current_capital := s.current_capital + t.investment_amount + pnl
          trades := s.trades.set (t.id - 1) t
          open_trades := s.open_trades.filter fun p => decide (p.1 ≠ ticker) })

/-- PaperTradingSystem.update_trade_price: mark the price, then evaluate the
stop-loss / take-profit exits (stop-loss first, as in the source). -/
def update_trade_price (s : PTState) (ticker : String) (current_price : ℚ) :
    Option Trade × PTState :=
  match lookupT ticker s.open_trades with
  | none => (none, s)
  | some trade =>
    let t := markPrice trade current_price
    let s1 := writeTrade s ticker t
    if t.direction = "BUY" then
      if current_price ≤ t.stop_loss then close_trade s1 ticker current_price "STOP_LOSS"
      else if current_price ≥ t.take_profit then close_trade s1 ticker current_price "TAKE_PROFIT"
      else (some t, s1)
    else
      if current_price ≥ t.stop_loss then close_trade s1 ticker current_price "STOP_LOSS"
      else if current_price ≤ t.take_profit then close_trade s1 ticker current_price "TAKE_PROFIT"
      else (some t, s1)

/-- One ledger operation, for properties over operation sequences. -/
inductive Op where
  | openT (ticker : String) (entry_price stop_loss take_profit : ℚ) (direction : String)
      (investment_amount : Option ℚ)
  | updateT (ticker : String) (current_price : ℚ)
  | closeT (ticker : String) (exit_price : ℚ) (reason : String)

/-- State transition of one ledger operation. -/
def applyOp (s : PTState) : Op → PTState
  | Op.openT tk e sl tp d inv => (open_trade s tk e sl tp d inv).2
  | Op.updateT tk p => (update_trade_price s tk p).2
  | Op.closeT tk p r => (close_trade s tk p r).2

/-- State after a sequence of ledger operations from a fresh system. -/
def run (initial_capital : ℚ) (ops : List Op) : PTState :=
  ops.foldl applyOp (initState initial_capital)

/-- Sum of investment_amount over the OPEN index. -/
def sumOpenInv (s : PTState) : ℚ :=
  (s.open_trades.map fun p => p.2.investment_amount).sum

/-- Sum of investment_amount + unrealized pnl over the OPEN index (the
aggregate that get_portfolio_stats adds to current_capital as total_equity). -/
def sumOpenEquity (s : PTState) : ℚ :=
  (s.open_trades.map fun p => p.2.investment_amount + p.2.pnl).sum

/-- Sum of unrealized pnl over the OPEN index. -/
def sumOpenPnl (s : PTState) : ℚ :=
  (s.open_trades.map fun p => p.2.pnl).sum

/-- Sum of realized pnl over the closed trades of the history. -/
def realizedPnlSum (s : PTState) : ℚ :=
  (s.trades.map fun t => if t.status = TradeStatus.OPEN then 0 else t.pnl).sum

/-- A price that is an exact multiple of 0.01, so that Python round(x, 2) is
exact on it and on its integer multiples. -/
def isCents (x : ℚ) : Prop := ∃ n : ℤ, x = n / 100

/-- The entry price an open operation commits at is an exact multiple of
0.01 (other operations are unrestricted). -/
def Op.entryClean : Op → Prop
  | Op.openT _ e _ _ _ _ => isCents e
  | _ => True

/-- config.STRATEGY_CONFIG rsi_period. -/
def rsi_period : ℕ := 14

/-- config.STRATEGY_CONFIG rsi_overbought. -/
def rsi_overbought : ℚ := 70

/-- config.STRATEGY_CONFIG rsi_oversold. -/
def rsi_oversold : ℚ := 30

/-- config.STRATEGY_CONFIG macd_fast. -/
def macd_fast : ℕ := 12

/-- config.STRATEGY_CONFIG macd_slow. -/
def macd_slow : ℕ := 26

/-- config.STRATEGY_CONFIG macd_signal. -/
def macd_signal : ℕ := 9

/-- config.STRATEGY_CONFIG bb_period. -/
def bb_period : ℕ := 20

/-- config.STRATEGY_CONFIG bb_std. -/
def bb_std : ℚ := 2

/-- config.STRATEGY_CONFIG sma_short. -/
def sma_short : ℕ := 20

/-- config.STRATEGY_CONFIG sma_long (the long-SMA window: the minimum series
length calculate_all_indicators accepts). -/
def sma_long : ℕ := 50

/-- config.STRATEGY_CONFIG ema_short. -/
def ema_short : ℕ := 12

/-- config.STRATEGY_CONFIG ema_long. -/
def ema_long : ℕ := 26

/-- config.STRATEGY_CONFIG volume_ma_period. -/
def volume_ma_period : ℕ := 20

/-- config.STRATEGY_CONFIG volume_spike_threshold (1.5). -/
def volume_spike_threshold : ℚ := 3/2

/-- config.STRATEGY_CONFIG stop_loss_percent. -/
def stop_loss_percent : ℚ := 5

/-- config.STRATEGY_CONFIG take_profit_percent. -/
def take_profit_percent : ℚ := 10

/-- One OHLCV bar of a price series (a DataFrame row); openPrice renames the
Open column (open is a Lean keyword). -/
structure Bar where
  openPrice : ℚ
  high : ℚ
  low : ℚ
  close : ℚ
  volume : ℚ
deriving DecidableEq

/-- Last element of a rolling series (series.iloc[-1]); 0 stands for the
value of an empty series, which the length guard makes unreachable. -/
def lastD (l : List ℚ) : ℚ := l.getLastD 0

/-- The last n elements: the window of rolling(n) at the final bar. -/
def lastN (n : ℕ) (l : List ℚ) : List ℚ := l.drop (l.length - n)

/-- Arithmetic mean (rolling mean at the final bar when applied to lastN). -/
def mean (l : List ℚ) : ℚ := l.sum / l.length

/-- pandas ewm(adjust=False) recursion y <- y + a * (x - y), all values. -/
def ewmList (a : ℚ) : List ℚ → List ℚ
  | [] => []
  | x :: xs => xs.scanl (fun y v => y + a * (v - y)) x

/-- Last value of the adjust=False ewm (0 for the empty series, which the
length guard makes unreachable). -/
def ewmLast (a : ℚ) (l : List ℚ) : ℚ := lastD (ewmList a l)

/-- Last value of pandas series.ewm(span).mean() with the default
adjust=True: weighted mean with weights (1-a)^i over the whole history. -/
def ewmAdjTrueLast (a : ℚ) (l : List ℚ) : ℚ :=
  let p := l.foldl (fun (nd : ℚ × ℚ) x => ((1 - a) * nd.1 + x, (1 - a) * nd.2 + 1)) (0, 0)
  p.1 / p.2

/-- Last RSI value per ta.momentum.RSIIndicator: Wilder smoothing
(ewm with alpha = 1/period, adjust=False) of the clipped one-bar diffs.
The leading NaN of close.diff(1) is turned into 0.0 by the where(..., 0.0)
masks, so both smoothed series start at 0. none models the NaN produced by
the 0/0 relative strength of an all-flat window; a zero average loss with
positive average gain yields RSI 100 (the infinite relative strength). -/
def rsiLast (closes : List ℚ) : Option ℚ :=
  let diffs := List.zipWith (fun x y => x - y) (closes.drop 1) closes
  let ups := 0 :: diffs.map fun d => if d > 0 then d else 0
  let downs := 0 :: diffs.map fun d => if d < 0 then -d else 0
  let emaup := ewmLast (1 / (rsi_period : ℚ)) ups
  let emadn := ewmLast (1 / (rsi_period : ℚ)) downs
  if emadn = 0 then (if emaup = 0 then none else some 100)
  else some (100 - 100 / (1 + emaup / emadn))

/-- bollinger_bands.position of the indicator dict. -/
inductive BBPosition where
  | above
  | below
  | middle
deriving DecidableEq

/-- The slice of the calculate_all_indicators dictionary that
generate_trading_signal reads (the remaining dict entries are only
rendered for display). -/
structure Indicators where
  priceCurrent : ℚ
  rsiValue : ℚ
  macdTrendUp : Bool
  macdHistogram : ℚ
  bbPos : BBPosition
  smaTrendUp : Bool
  emaTrendUp : Bool
  priceAboveSma20 : Bool
  priceAboveSma50 : Bool
  volumeSpike : Bool
deriving DecidableEq

/-- technical_analysis.calculate_all_indicators: absent when the series is
shorter than sma_long bars, otherwise the indicator snapshot at the last
bar. ta's MACD masks the line as NaN until macd_slow observations, so the
signal-line ewm seeds at index macd_slow - 1 of the line. The Bollinger
position compares the raw close against mavg plus/minus bb_std rolling
population standard deviations (ta uses std(ddof=0)); the comparison is
encoded square-root-free: c > m + k*sigma iff c > m and (c-m)^2 > k^2*var,
which is exact. -/
def calculate_all_indicators (df : List Bar) : Option Indicators :=
  if df.length < sma_long then none
  else
    let closes := df.map Bar.close
    let current_price := lastD closes
    let rsiV : ℚ :=
      match rsiLast closes with
      | none => 50
      | some v => round2 v
    let emaF := ewmList (2 / ((macd_fast : ℚ) + 1)) closes
    let emaS := ewmList (2 / ((macd_slow : ℚ) + 1)) closes
    let macdList := List.zipWith (fun x y => x - y) emaF emaS
    let macdL := lastD macdList
    let signalL := ewmLast (2 / ((macd_signal : ℚ) + 1)) (macdList.drop (macd_slow - 1))
    let m := mean (lastN bb_period closes)
    let varP := ((lastN bb_period closes).map fun x => (x - m) ^ 2).sum / (bb_period : ℚ)
    let bbP :=
      if current_price > m ∧ (current_price - m) ^ 2 > bb_std ^ 2 * varP then BBPosition.above
      else if current_price < m ∧ (m - current_price) ^ 2 > bb_std ^ 2 * varP then BBPosition.below
      else BBPosition.middle
    let smaS := mean (lastN sma_short closes)
    let smaL := mean (lastN sma_long closes)
    let emaShortT := ewmAdjTrueLast (2 / ((ema_short : ℚ) + 1)) closes
    let emaLongT := ewmAdjTrueLast (2 / ((ema_long : ℚ) + 1)) closes
    let volumes := df.map Bar.volume
    let avgVol := mean (lastN volume_ma_period volumes)
    let volRatio := if avgVol > 0 then lastD volumes / avgVol else 1
    some
      { priceCurrent := round2 current_price
        rsiValue := rsiV
        macdTrendUp := decide (macdL > signalL)
        macdHistogram := round4 (macdL - signalL)
        bbPos := bbP
        smaTrendUp := decide (smaS > smaL)
        emaTrendUp := decide (emaShortT > emaLongT)
        priceAboveSma20 := decide (current_price > smaS)
        priceAboveSma50 := decide (current_price > smaL)
        volumeSpike := decide (volRatio > volume_spike_threshold) }

/-- Buy and sell accumulators after the RSI, MACD, Bollinger and
moving-average blocks of generate_trading_signal, before the volume block. -/
def scoresPre (ind : Indicators) : ℕ × ℕ :=
  let rsiB : ℕ × ℕ :=
    if ind.rsiValue < rsi_oversold then (20, 0)
    else if ind.rsiValue > rsi_overbought then (0, 20)
    else if ind.rsiValue < 45 then (10, 0)
    else if ind.rsiValue > 55 then (0, 10)
    else (0, 0)
  let macdB : ℕ × ℕ :=
    if ind.macdTrendUp then (if ind.macdHistogram > 0 then 15 + 10 else 15, 0)
    else (0, if ind.macdHistogram < 0 then 15 + 10 else 15)
  let bbB : ℕ × ℕ :=
    match ind.bbPos with
    | BBPosition.below => (15, 0)
    | BBPosition.above => (0, 15)
    | BBPosition.middle => (0, 0)
  let trendB : ℕ × ℕ :=
    if ind.smaTrendUp ∧ ind.emaTrendUp then (15, 0)
    else if ¬ ind.smaTrendUp ∧ ¬ ind.emaTrendUp then (0, 15)
    else (0, 0)
  let maB : ℕ × ℕ :=
    if ind.priceAboveSma20 ∧ ind.priceAboveSma50 then (10, 0)
    else if ¬ ind.priceAboveSma20 ∧ ¬ ind.priceAboveSma50 then (0, 10)
    else (0, 0)
  (rsiB.1 + macdB.1 + bbB.1 + trendB.1 + maB.1,
   rsiB.2 + macdB.2 + bbB.2 + trendB.2 + maB.2)

/-- Accumulators after the volume block: a flagged spike adds 15 to
buy_score when buy_score > sell_score and to sell_score otherwise. -/
def scores (ind : Indicators) : ℕ × ℕ :=
  let p := scoresPre ind
  if ind.volumeSpike then (if p.1 > p.2 then (p.1 + 15, p.2) else (p.1, p.2 + 15)) else p

/-- technical_analysis.SignalType (Arabic display strings dropped). -/
inductive SignalType where
  | STRONG_BUY
  | BUY
  | HOLD
  | SELL
  | STRONG_SELL
deriving DecidableEq

/-- Direction and (pre-rounding) confidence from the accumulated scores. -/
def signalCore (buy_score sell_score : ℕ) : SignalType × ℚ :=
  let total_score := buy_score + sell_score
  if total_score = 0 then (SignalType.HOLD, 50)
  else if buy_score > sell_score then
    let confidence : ℚ := ((buy_score : ℚ) / (total_score : ℚ)) * 100
    (if confidence ≥ 75 then SignalType.STRONG_BUY
     else if confidence ≥ 55 then SignalType.BUY
     else SignalType.HOLD, confidence)
  else
    let confidence : ℚ := ((sell_score : ℚ) / (total_score : ℚ)) * 100
    (if confidence ≥ 75 then SignalType.STRONG_SELL
     else if confidence ≥ 55 then SignalType.SELL
     else SignalType.HOLD, confidence)

/-- technical_analysis.TradingSignal (reasons, indicator dict and timestamp
omitted: presentation data). -/
structure TradingSignal where
  ticker : String
  signal_type : SignalType
  confidence : ℚ
  price : ℚ
  entry_price : ℚ
  stop_loss : ℚ
  take_profit : ℚ
deriving DecidableEq

/-- technical_analysis.generate_trading_signal: absent iff the indicator
engine returns absent; otherwise score, classify, and derive entry /
stop-loss / take-profit levels (SELL-class above/below, every other
direction including HOLD uses the BUY-class convention). -/
def generate_trading_signal (ticker : String) (df : List Bar) : Option TradingSignal :=
  match calculate_all_indicators df with
  | none => none
  | some ind =>
    let p := scores ind
    let sc := signalCore p.1 p.2
    let current_price := ind.priceCurrent
    let levels : ℚ × ℚ :=
      match sc.1 with
      | SignalType.SELL =>
          (current_price * (1 + stop_loss_percent / 100),
           current_price * (1 - take_profit_percent / 100))
      | SignalType.STRONG_SELL =>
          (current_price * (1 + stop_loss_percent / 100),
           current_price * (1 - take_profit_percent / 100))
      | _ =>
          (current_price * (1 - stop_loss_percent / 100),
           current_price * (1 + take_profit_percent / 100))
    some
      { ticker := ticker
        signal_type := sc.1
        confidence := round1 sc.2
        price := current_price
        entry_price := round2 current_price
        stop_loss := round2 levels.1
        take_profit := round2 levels.2 }

/-- The bookkeeping invariant every ledger operation preserves: the balance
equation (corrected form of the spec's equity invariant) together with the
facts linking the OPEN index to the trade history that make it inductive. -/
structure GoodState (s : PTState) : Prop where
  balance : s.current_capital + sumOpenInv s = s.initial_capital + realizedPnlSum s
  openEntries : ∀ p ∈ s.open_trades,
    p.2.status = TradeStatus.OPEN ∧ p.2.ticker = p.1 ∧ 1 ≤ p.2.id ∧
      s.trades[p.2.id - 1]? = some p.2
  keysNodup : (s.open_trades.map Prod.fst).Nodup
  idsIndexed : ∀ i t0, s.trades[i]? = some t0 → t0.id = i + 1

/-- The trade produced by opening a LONG at entry 100, stop 90, target 120
with 1000 of capital (quantity 10). -/
def tLong : Trade :=
  { id := 1, ticker := "A", direction := "BUY", entry_price := 100, current_price := 100,
    stop_loss := 90, take_profit := 120, quantity := 10, investment_amount := 1000,
    exit_price := none, status := TradeStatus.OPEN, pnl := 0, pnl_percent := 0 }

/-- The ledger right after opening tLong from 100000 of initial capital. -/
def sLong : PTState :=
  { initial_capital := 100000, current_capital := 99000,
    trades := [tLong], open_trades := [("A", tLong)] }

/-- The spec scenario position: LONG at entry 100 with stop_loss 95
(target 110), quantity 10. -/
def tStop : Trade :=
  { id := 1, ticker := "A", direction := "BUY", entry_price := 100, current_price := 100,
    stop_loss := 95, take_profit := 110, quantity := 10, investment_amount := 1000,
    exit_price := none, status := TradeStatus.OPEN, pnl := 0, pnl_percent := 0 }

/-- The ledger right after opening tStop from 100000 of initial capital. -/
def sStop : PTState :=
  { initial_capital := 100000, current_capital := 99000,
    trades := [tStop], open_trades := [("A", tStop)] }

/-- A SHORT whose stop (90) sits below its target (110), so that a price
between them crosses both exit thresholds at once. -/
def tShort : Trade :=
  { id := 1, ticker := "A", direction := "SELL", entry_price := 100, current_price := 100,
    stop_loss := 90, take_profit := 110, quantity := 10, investment_amount := 1000,
    exit_price := none, status := TradeStatus.OPEN, pnl := 0, pnl_percent := 0 }

/-- The ledger right after opening tShort from 100000 of initial capital. -/
def sShort : PTState :=
  { initial_capital := 100000, current_capital := 99000,
    trades := [tShort], open_trades := [("A", tShort)] }

/-- tLong after update_trade_price at 110 (no exit triggered): pnl 100. -/
def tLong110 : Trade :=
  { tLong with current_price := 110, pnl := 100, pnl_percent := 10 }

/-- The ledger holding tLong110 as its open position. -/
def sLong110 : PTState :=
  { initial_capital := 100000, current_capital := 99000,
    trades := [tLong110], open_trades := [("A", tLong110)] }

/-- tLong manually closed at 105: realized pnl 50, CLOSED_PROFIT. -/
def tClosed105 : Trade :=
  { tLong with
      exit_price := some 105
      current_price := 105
      pnl := 50
      pnl_percent := 5
      status := TradeStatus.CLOSED_PROFIT }

/-- The ledger after manually closing tLong at 105. -/
def sClosed105 : PTState :=
  { initial_capital := 100000, current_capital := 100050,
    trades := [tClosed105], open_trades := [] }

/-- An indicator snapshot whose pre-volume accumulators tie at 15 apiece
(neutral RSI, rising MACD with flat histogram, price above the upper
Bollinger band, mixed trends) while a volume spike is flagged. -/
def exInd : Indicators :=
  { priceCurrent := 100, rsiValue := 50, macdTrendUp := true, macdHistogram := 0,
    bbPos := BBPosition.above, smaTrendUp := true, emaTrendUp := false,
    priceAboveSma20 := true, priceAboveSma50 := false, volumeSpike := true }

theorem rnd_intCast (z : ℤ) : rnd z = z := by
  unfold rnd
  rw [Int.floor_intCast]
  norm_num

theorem floor_le_rnd (x : ℚ) : ⌊x⌋ ≤ rnd x := by
  unfold rnd
  split_ifs <;> omega

theorem rnd_le_ceil (x : ℚ) : rnd x ≤ ⌈x⌉ := by
  have hceil : (⌊x⌋ : ℚ) < x → ⌊x⌋ + 1 ≤ ⌈x⌉ := fun h => Int.lt_ceil.mpr h
  unfold rnd
  split_ifs with h1 h2 h3
  · exact Int.floor_le_ceil x
  · exact hceil (by linarith)
  · exact Int.floor_le_ceil x
  · have hfr : x - ⌊x⌋ = 1/2 := by linarith
    exact hceil (by linarith)

theorem round2_int_div_100 (m : ℤ) : round2 ((m : ℚ) / 100) = (m : ℚ) / 100 := by
  unfold round2
  rw [div_mul_cancel₀ _ (by norm_num : (100 : ℚ) ≠ 0), rnd_intCast]

theorem round2_mul_cents (q : ℤ) (x : ℚ) (hx : isCents x) :
    round2 ((q : ℚ) * x) = (q : ℚ) * x := by
  obtain ⟨n, rfl⟩ := hx
  have h : (q : ℚ) * ((n : ℚ) / 100) = ((q * n : ℤ) : ℚ) / 100 := by
    push_cast
    ring
  rw [h, round2_int_div_100]

theorem lookupT_eq_none {k : String} {l : List (String × Trade)} :
    lookupT k l = none ↔ ∀ p ∈ l, p.1 ≠ k := by
  induction l with
  | nil => simp [lookupT]
  | cons p ps ih =>
    by_cases hp : p.1 = k
    · simp [lookupT, hp]
    · simp [lookupT, hp, ih]

theorem lookupT_mem {k : String} {l : List (String × Trade)} {t : Trade}
    (h : lookupT k l = some t) : (k, t) ∈ l := by
  induction l with
  | nil => simp [lookupT] at h
  | cons p ps ih =>
    by_cases hp : p.1 = k
    · rw [lookupT, if_pos hp] at h
      injection h with h
      subst h hp
      exact List.mem_cons_self p ps
    · rw [lookupT, if_neg hp] at h
      exact List.mem_cons_of_mem _ (ih h)

theorem lookupT_filter_self (k : String) (l : List (String × Trade)) :
    lookupT k (l.filter fun p => decide (p.1 ≠ k)) = none := by
  induction l with
  | nil => rfl
  | cons p ps ih =>
    by_cases hp : p.1 = k
    · simp only [List.filter_cons, hp]
      simpa using ih
    · simp only [List.filter_cons, decide_eq_true_eq]
      rw [if_pos (by simpa using hp)]
      rw [lookupT, if_neg hp]
      exact ih

theorem filter_of_key_not_mem {k : String} {l : List (String × Trade)}
    (h : k ∉ l.map Prod.fst) : (l.filter fun p => decide (p.1 ≠ k)) = l := by
  rw [List.filter_eq_self]
  intro p hp
  simp only [decide_eq_true_eq]
  intro hk
  exact h (by simpa [← hk] using List.mem_map_of_mem Prod.fst hp)

theorem sum_map_set (l : List Trade) (f : Trade → ℚ) (j : ℕ) (t : Trade) (h : j < l.length) :
    ((l.set j t).map f).sum = (l.map f).sum - f (l.get ⟨j, h⟩) + f t := by
  induction l generalizing j with
  | nil => simp at h
  | cons x xs ih =>
    cases j with
    | zero =>
      simp only [List.set, List.map_cons, List.sum_cons, List.get]
      ring
    | succ n =>
      have hn : n < xs.length := by simpa using h
      simp only [List.set, List.map_cons, List.sum_cons, List.get]
      rw [ih n hn]
      ring

theorem sum_filter_key {k : String} {l : List (String × Trade)} {t : Trade} (f : Trade → ℚ)
    (hnd : (l.map Prod.fst).Nodup) (hl : lookupT k l = some t) :
    ((l.filter fun p => decide (p.1 ≠ k)).map fun p => f p.2).sum
      = (l.map fun p => f p.2).sum - f t := by
  induction l with
  | nil => simp [lookupT] at hl
  | cons p ps ih =>
    by_cases hp : p.1 = k
    · rw [lookupT, if_pos hp] at hl
      injection hl with hl
      have hnotin : k ∉ ps.map Prod.fst := by
        rw [← hp]
        exact (List.nodup_cons.mp (by simpa using hnd)).1
      simp only [List.filter_cons, hp]
      rw [if_neg (by simp)]
      rw [filter_of_key_not_mem hnotin]
      simp [hl]
    · rw [lookupT, if_neg hp] at hl
      have hnd2 : (ps.map Prod.fst).Nodup := (List.nodup_cons.mp (by simpa using hnd)).2
      simp only [List.filter_cons, decide_eq_true_eq]
      rw [if_pos (by simpa using hp)]
      simp only [List.map_cons, List.sum_cons]
      rw [ih hnd2 hl]
      ring

theorem sum_map_key_replace {k : String} {l : List (String × Trade)} {t : Trade}
    (t1 : Trade) (f : Trade → ℚ)
    (hnd : (l.map Prod.fst).Nodup) (hl : lookupT k l = some t) :
    (((l.map fun p => if p.1 = k then (p.1, t1) else p)).map fun p => f p.2).sum
      = (l.map fun p => f p.2).sum - f t + f t1 := by
  induction l with
  | nil => simp [lookupT] at hl
  | cons p ps ih =>
    by_cases hp : p.1 = k
    · rw [lookupT, if_pos hp] at hl
      injection hl with hl
      have hnotin : k ∉ ps.map Prod.fst := by
        rw [← hp]
        exact (List.nodup_cons.mp (by simpa using hnd)).1
      have hrepl : (ps.map fun q => if q.1 = k then (q.1, t1) else q) = ps := by
        conv_rhs => rw [← List.map_id ps]
        apply List.map_congr_left
        intro q hq
        have hk : q.1 ≠ k := fun hk =>
          hnotin (by simpa [← hk] using List.mem_map_of_mem Prod.fst hq)
        simp [hk]
      simp only [List.map_cons, if_pos hp, hrepl, List.sum_cons, hl]
      ring
    · rw [lookupT, if_neg hp] at hl
      have hnd2 : (ps.map Prod.fst).Nodup := (List.nodup_cons.mp (by simpa using hnd)).2
      simp only [List.map_cons, if_neg hp, List.sum_cons]
      rw [ih hnd2 hl]
      ring

theorem keys_map_replace (k : String) (l : List (String × Trade)) (t1 : Trade) :
    ((l.map fun p => if p.1 = k then (p.1, t1) else p).map Prod.fst) = l.map Prod.fst := by
  rw [List.map_map]
  apply List.map_congr_left
  intro p _
  by_cases hp : p.1 = k <;> simp [hp]

theorem markPrice_id (t : Trade) (p : ℚ) : (markPrice t p).id = t.id := by
  unfold markPrice
  split <;> rfl

theorem markPrice_ticker (t : Trade) (p : ℚ) : (markPrice t p).ticker = t.ticker := by
  unfold markPrice
  split <;> rfl

theorem markPrice_status (t : Trade) (p : ℚ) : (markPrice t p).status = t.status := by
  unfold markPrice
  split <;> rfl

theorem markPrice_direction (t : Trade) (p : ℚ) : (markPrice t p).direction = t.direction := by
  unfold markPrice
  split <;> rfl

theorem markPrice_inv (t : Trade) (p : ℚ) :
    (markPrice t p).investment_amount = t.investment_amount := by
  unfold markPrice
  split <;> rfl

theorem markPrice_stop_loss (t : Trade) (p : ℚ) : (markPrice t p).stop_loss = t.stop_loss := by
  unfold markPrice
  split <;> rfl

theorem markPrice_take_profit (t : Trade) (p : ℚ) :
    (markPrice t p).take_profit = t.take_profit := by
  unfold markPrice
  split <;> rfl

theorem sum_map_set_of_getElem (l : List Trade) (f : Trade → ℚ) (j : ℕ) (t t1 : Trade)
    (h : l[j]? = some t) : ((l.set j t1).map f).sum = (l.map f).sum - f t + f t1 := by
  obtain ⟨hlt, hval⟩ := List.getElem?_eq_some.mp h
  rw [sum_map_set l f j t1 hlt, List.get_eq_getElem, hval]

theorem good_init (c : ℚ) : GoodState (initState c) := by
  constructor
  · simp [initState, sumOpenInv, realizedPnlSum]
  · intro p hp
    simp [initState] at hp
  · simp [initState]
  · intro i t0 h
    simp [initState] at h

theorem good_open (s : PTState) (tk : String) (e sl tp : ℚ) (d : String) (inv : Option ℚ)
    (hc : isCents e) (G : GoodState s) : GoodState (open_trade s tk e sl tp d inv).2 := by
  simp only [open_trade]
  split_ifs with h1 h2 h3
  · exact G
  · exact G
  · exact G
  · try dsimp only
    constructor
    · have hb := G.balance
      unfold sumOpenInv realizedPnlSum at hb ⊢
      simp only [List.map_append, List.sum_append, List.map_cons, List.map_nil,
        List.sum_cons, List.sum_nil]
      rw [round2_mul_cents _ _ hc]
      push_cast
      linarith
    · intro p hp
      rw [List.mem_append] at hp
      rcases hp with hp | hp
      · obtain ⟨ha, hb, hone, hd⟩ := G.openEntries p hp
        obtain ⟨hlt, _⟩ := List.getElem?_eq_some.mp hd
        refine ⟨ha, hb, hone, ?_⟩
        rw [List.getElem?_append, if_pos hlt]
        exact hd
      · simp only [List.mem_singleton] at hp
        subst hp
        refine ⟨rfl, rfl, Nat.le_add_left 1 _, ?_⟩
        simp only [Nat.add_sub_cancel]
        exact List.getElem?_concat_length _ _
    · simp only [List.map_append, List.map_cons, List.map_nil]
      rw [List.nodup_append]
      refine ⟨G.keysNodup, List.nodup_singleton tk, ?_⟩
      intro a ha hb
      simp only [List.mem_singleton] at hb
      subst hb
      have hnone := Option.not_isSome_iff_eq_none.mp h1
      obtain ⟨p, hp, hfst⟩ := List.mem_map.mp ha
      exact (lookupT_eq_none.mp hnone p hp) hfst
    · intro i t0 h
      rw [List.getElem?_append] at h
      split at h
      · exact G.idsIndexed i t0 h
      · rename_i hge
        rcases hk : i - s.trades.length with _ | k
        · rw [hk] at h
          simp only [List.getElem?_cons_zero, Option.some.injEq] at h
          subst h
          simp only []
          omega
        · rw [hk] at h
          simp at h

theorem good_markWrite (s : PTState) (tk : String) (p : ℚ) (trade : Trade)
    (hl : lookupT tk s.open_trades = some trade) (G : GoodState s) :
    GoodState (writeTrade s tk (markPrice trade p)) := by
  have hmem := lookupT_mem hl
  obtain ⟨hst, htk, hone, hget⟩ := G.openEntries _ hmem
  replace hst : trade.status = TradeStatus.OPEN := hst
  replace htk : trade.ticker = tk := htk
  replace hone : 1 ≤ trade.id := hone
  replace hget : s.trades[trade.id - 1]? = some trade := hget
  have hidm : (markPrice trade p).id = trade.id := markPrice_id trade p
  constructor
  · have hb := G.balance
    unfold sumOpenInv realizedPnlSum at hb ⊢
    unfold writeTrade
    simp only []
    rw [sum_map_key_replace (markPrice trade p) (fun t => t.investment_amount) G.keysNodup hl]
    rw [markPrice_inv]
    rw [hidm, sum_map_set_of_getElem _ _ _ trade _ hget]
    rw [if_pos hst, if_pos (by rw [markPrice_status]; exact hst)]
    linarith
  · intro q hq
    unfold writeTrade at hq
    simp only [] at hq
    obtain ⟨q0, hq0, hrepl⟩ := List.mem_map.mp hq
    by_cases hk : q0.1 = tk
    · rw [if_pos hk] at hrepl
      subst hrepl
      refine ⟨by rw [markPrice_status]; exact hst, by rw [markPrice_ticker, htk, hk], ?_, ?_⟩
      · rw [hidm]; exact hone
      · unfold writeTrade
        simp only [hidm]
        obtain ⟨hlt, _⟩ := List.getElem?_eq_some.mp hget
        rw [List.getElem?_set_self (by simpa using hlt)]
    · rw [if_neg hk] at hrepl
      subst hrepl
      obtain ⟨ha, hb, hone2, hd⟩ := G.openEntries q0 hq0
      refine ⟨ha, hb, hone2, ?_⟩
      unfold writeTrade
      simp only [hidm]
      have hne : q0.2.id ≠ trade.id := by
        intro heq
        have : s.trades[q0.2.id - 1]? = some trade := by rw [heq]; exact hget
        rw [hd] at this
        injection this with this
        apply hk
        rw [← hb, this, htk]
      rw [List.getElem?_set_ne (by omega)]
      exact hd
  · unfold writeTrade
    simp only []
    rw [keys_map_replace]
    exact G.keysNodup
  · intro i t0 h
    unfold writeTrade at h
    simp only [] at h
    rw [List.getElem?_set] at h
    split at h
    · rename_i hij
      split at h
      · injection h with h
        subst h
        rw [hidm] at hij ⊢
        omega
      · simp at h
    · exact G.idsIndexed i t0 h

theorem close_status_ne_open (r : String) (x : ℚ) :
    (if r = "STOP_LOSS" ∨ x < 0 then TradeStatus.CLOSED_LOSS
     else if r = "TAKE_PROFIT" ∨ x > 0 then TradeStatus.CLOSED_PROFIT
     else TradeStatus.CLOSED_MANUAL) ≠ TradeStatus.OPEN := by
  split_ifs <;> simp

theorem good_close (s : PTState) (tk : String) (xp : ℚ) (r : String) (G : GoodState s) :
    GoodState (close_trade s tk xp r).2 := by
  rcases hl : lookupT tk s.open_trades with _ | trade
  · simp only [close_trade, hl]
    exact G
  · have hmem := lookupT_mem hl
    obtain ⟨hst, htk, hone, hget⟩ := G.openEntries _ hmem
    replace hst : trade.status = TradeStatus.OPEN := hst
    replace htk : trade.ticker = tk := htk
    replace hone : 1 ≤ trade.id := hone
    replace hget : s.trades[trade.id - 1]? = some trade := hget
    simp only [close_trade, hl]
    constructor
    · have hb := G.balance
      unfold sumOpenInv realizedPnlSum at hb ⊢
      try dsimp only
      rw [sum_filter_key (fun t => t.investment_amount) G.keysNodup hl]
      rw [sum_map_set_of_getElem _ _ _ trade _ hget]
      rw [if_pos hst]
      rw [if_neg (close_status_ne_open r _)]
      linarith
    · intro q hq
      try dsimp only at hq
      rw [List.mem_filter] at hq
      obtain ⟨hq0, hqk⟩ := hq
      simp only [decide_eq_true_eq] at hqk
      obtain ⟨ha, hb, hone2, hd⟩ := G.openEntries q hq0
      refine ⟨ha, hb, hone2, ?_⟩
      try dsimp only
      have hne : q.2.id ≠ trade.id := by
        intro heq
        have : s.trades[q.2.id - 1]? = some trade := by rw [heq]; exact hget
        rw [hd] at this
        injection this with this
        apply hqk
        rw [← hb, this, htk]
      rw [List.getElem?_set_ne (by omega)]
      exact hd
    · try dsimp only
      exact G.keysNodup.sublist (List.Sublist.map _ (List.filter_sublist _))
    · intro i t0 h
      try dsimp only at h
      rw [List.getElem?_set] at h
      split at h
      · rename_i hij
        split at h
        · injection h with h
          subst h
          try dsimp only at hij ⊢
          omega
        · simp at h
      · exact G.idsIndexed i t0 h

theorem good_update (s : PTState) (tk : String) (p : ℚ) (G : GoodState s) :
    GoodState (update_trade_price s tk p).2 := by
  rcases hl : lookupT tk s.open_trades with _ | trade
  · simp only [update_trade_price, hl]
    exact G
  · have hw : GoodState (writeTrade s tk (markPrice trade p)) := good_markWrite s tk p trade hl G
    simp only [update_trade_price, hl]
    try dsimp only
    split_ifs with h1 h2 h3 h4 h5
    · exact good_close _ _ _ _ hw
    · exact good_close _ _ _ _ hw
    · exact hw
    · exact good_close _ _ _ _ hw
    · exact good_close _ _ _ _ hw
    · exact hw

theorem good_apply (s : PTState) (op : Op) (hc : op.entryClean) (G : GoodState s) :
    GoodState (applyOp s op) := by
  cases op with
  | openT tk e sl tp d inv => exact good_open s tk e sl tp d inv hc G
  | updateT tk p => exact good_update s tk p G
  | closeT tk p r => exact good_close s tk p r G

theorem good_foldl (ops : List Op) (s : PTState) (G : GoodState s)
    (h : ∀ op ∈ ops, op.entryClean) : GoodState (ops.foldl applyOp s) := by
  induction ops generalizing s with
  | nil => exact G
  | cons op rest ih =>
    exact ih (applyOp s op) (good_apply s op (h op (List.mem_cons_self op rest)) G)
      fun o ho => h o (List.mem_cons_of_mem op ho)

theorem good_run (c : ℚ) (ops : List Op) (h : ∀ op ∈ ops, op.entryClean) :
    GoodState (run c ops) :=
  good_foldl ops (initState c) (good_init c) h

/-- C1 (amended): for every sequence of ledger operations whose open calls
use entry prices that are exact multiples of 0.01, after each operation
current_capital plus the sum over OPEN positions of
(investment_amount + unrealized_pnl) equals initial_capital plus the sum of
realized_pnl over all closed positions plus the sum of unrealized_pnl over
the OPEN positions (equivalently, current_capital plus the sum of OPEN
investment_amount equals initial_capital plus the realized pnl). -/
theorem C1_ledger_balance (c : ℚ) (ops : List Op) (h : ∀ op ∈ ops, op.entryClean) :
    (run c ops).current_capital + sumOpenEquity (run c ops)
      = (run c ops).initial_capital + realizedPnlSum (run c ops) + sumOpenPnl (run c ops) := by
  have hb := (good_run c ops h).balance
  unfold sumOpenInv at hb
  unfold sumOpenEquity sumOpenPnl
  rw [List.sum_map_add]
  linarith

theorem run_one_open :
    run 100000 [Op.openT "A" 100 90 120 "BUY" (some 1000)] = sLong := by
  norm_num [run, List.foldl, applyOp, open_trade, initState, lookupT, effectiveInvestment,
    default_trade_amount, pyInt, round2, rnd, sLong, tLong]

theorem update_long_110 : update_trade_price sLong "A" 110 = (some tLong110, sLong110) := by
  norm_num [update_trade_price, lookupT, sLong, tLong, markPrice, writeTrade, round2, rnd,
    sLong110, tLong110]

/-- C1 (counterexample): after opening a LONG at 100 with 1000 and updating
its price to 110 (no exit), current_capital + (investment + unrealized pnl)
is 100100 while initial_capital + realized pnl is 100000: the claimed
equation fails as soon as an OPEN position carries nonzero unrealized pnl. -/
theorem C1_counterexample :
    ¬ ((run 100000 [Op.openT "A" 100 90 120 "BUY" (some 1000), Op.updateT "A" 110]).current_capital
        + sumOpenEquity (run 100000 [Op.openT "A" 100 90 120 "BUY" (some 1000), Op.updateT "A" 110])
        = (run 100000 [Op.openT "A" 100 90 120 "BUY" (some 1000), Op.updateT "A" 110]).initial_capital
        + realizedPnlSum (run 100000 [Op.openT "A" 100 90 120 "BUY" (some 1000), Op.updateT "A" 110])) := by
  have h1 : run 100000 [Op.openT "A" 100 90 120 "BUY" (some 1000), Op.updateT "A" 110]
      = sLong110 := by
    have h0 : applyOp (initState 100000) (Op.openT "A" 100 90 120 "BUY" (some 1000)) = sLong :=
      run_one_open
    show applyOp (applyOp (initState 100000) (Op.openT "A" 100 90 120 "BUY" (some 1000)))
      (Op.updateT "A" 110) = sLong110
    rw [h0]
    show (update_trade_price sLong "A" 110).2 = sLong110
    rw [update_long_110]
  rw [h1]
  norm_num [sLong110, tLong110, tLong, sumOpenEquity, realizedPnlSum]

/-- C1 (witness): the amended balance equation instantiated on the concrete
run open at 100, update to 110, manual close at 105. -/
theorem C1_witness :
    (∀ op ∈ ([Op.openT "A" 100 90 120 "BUY" (some 1000), Op.updateT "A" 110,
        Op.closeT "A" 105 "MANUAL"] : List Op), op.entryClean) ∧
    (run 100000 [Op.openT "A" 100 90 120 "BUY" (some 1000), Op.updateT "A" 110,
        Op.closeT "A" 105 "MANUAL"]).current_capital
      + sumOpenEquity (run 100000 [Op.openT "A" 100 90 120 "BUY" (some 1000), Op.updateT "A" 110,
        Op.closeT "A" 105 "MANUAL"])
      = (run 100000 [Op.openT "A" 100 90 120 "BUY" (some 1000), Op.updateT "A" 110,
        Op.closeT "A" 105 "MANUAL"]).initial_capital
      + realizedPnlSum (run 100000 [Op.openT "A" 100 90 120 "BUY" (some 1000), Op.updateT "A" 110,
        Op.closeT "A" 105 "MANUAL"])
      + sumOpenPnl (run 100000 [Op.openT "A" 100 90 120 "BUY" (some 1000), Op.updateT "A" 110,
        Op.closeT "A" 105 "MANUAL"]) := by
  have hclean : ∀ op ∈ ([Op.openT "A" 100 90 120 "BUY" (some 1000), Op.updateT "A" 110,
      Op.closeT "A" 105 "MANUAL"] : List Op), op.entryClean := by
    intro op hop
    simp only [List.mem_cons, List.not_mem_nil, or_false] at hop
    rcases hop with rfl | rfl | rfl
    · exact ⟨10000, by norm_num⟩
    · trivial
    · trivial
  exact ⟨hclean, C1_ledger_balance 100000 _ hclean⟩

/-- C8: a successful close yields a non-OPEN position, and a second close of
the same instrument returns absent and leaves the whole ledger state
unchanged. -/
theorem C8_close_idempotent (s : PTState) (tk : String) (p1 p2 : ℚ) (r1 r2 : String)
    (t1 : Trade) (s1 : PTState) (h : close_trade s tk p1 r1 = (some t1, s1)) :
    t1.status ≠ TradeStatus.OPEN ∧ close_trade s1 tk p2 r2 = (none, s1) := by
  rcases hl : lookupT tk s.open_trades with _ | trade
  · simp only [close_trade, hl] at h
    injection h with h1 h2
    exact absurd h1 (by simp)
  · simp only [close_trade, hl] at h
    injection h with h1 h2
    injection h1 with h1
    subst h1
    subst h2
    constructor
    · exact close_status_ne_open r1 _
    · simp only [close_trade]
      rw [lookupT_filter_self]

/-- C8 (witness): closing the concrete open LONG at 105 twice; the second
close is absent and preserves the state after the first. -/
theorem C8_witness :
    close_trade (close_trade sLong "A" 105 "MANUAL").2 "A" 105 "MANUAL"
      = (none, (close_trade sLong "A" 105 "MANUAL").2) := by
  have h : close_trade sLong "A" 105 "MANUAL" = (some tClosed105, sClosed105) := by
    norm_num [close_trade, lookupT, sLong, tLong, tClosed105, sClosed105, round2, rnd]
    intro hM
    exact absurd hM (by decide)
  have h2 := C8_close_idempotent sLong "A" 105 105 "MANUAL" "MANUAL" tClosed105 sClosed105 h
  rw [h]
  exact h2.2

/-- C9: whenever open_trade returns None (duplicate position, insufficient
capital, or zero quantity), no ledger state is mutated: the state after the
call is exactly the state before it. -/
theorem C9_open_failure_pure (s : PTState) (tk : String) (e sl tp : ℚ) (d : String)
    (inv : Option ℚ) (h : (open_trade s tk e sl tp d inv).1 = none) :
    (open_trade s tk e sl tp d inv).2 = s := by
  simp only [open_trade] at h ⊢
  split_ifs at h ⊢ <;> rfl

/-- C9 (witness): a duplicate open on the concrete ledger fails and leaves
the state unchanged. -/
theorem C9_witness :
    (open_trade sLong "A" 100 90 120 "BUY" (some 1000)).1 = none ∧
    (open_trade sLong "A" 100 90 120 "BUY" (some 1000)).2 = sLong := by
  have h : (open_trade sLong "A" 100 90 120 "BUY" (some 1000)).1 = none := by
    norm_num [open_trade, sLong, lookupT]
  exact ⟨h, C9_open_failure_pure sLong "A" 100 90 120 "BUY" (some 1000) h⟩

theorem str_tp_ne_sl : ("TAKE_PROFIT" : String) ≠ "STOP_LOSS" := by decide

theorem str_sell_ne_buy : ("SELL" : String) ≠ "BUY" := by decide

theorem str_man_ne_sl : ("MANUAL" : String) ≠ "STOP_LOSS" := by decide

theorem str_man_ne_tp : ("MANUAL" : String) ≠ "TAKE_PROFIT" := by decide

theorem close_status_spec (r : String) (x : ℚ) :
    (r = "STOP_LOSS" →
      (if r = "STOP_LOSS" ∨ x < 0 then TradeStatus.CLOSED_LOSS
       else if r = "TAKE_PROFIT" ∨ x > 0 then TradeStatus.CLOSED_PROFIT
       else TradeStatus.CLOSED_MANUAL) = TradeStatus.CLOSED_LOSS) ∧
    (r = "TAKE_PROFIT" → 0 ≤ x →
      (if r = "STOP_LOSS" ∨ x < 0 then TradeStatus.CLOSED_LOSS
       else if r = "TAKE_PROFIT" ∨ x > 0 then TradeStatus.CLOSED_PROFIT
       else TradeStatus.CLOSED_MANUAL) = TradeStatus.CLOSED_PROFIT) ∧
    (r = "TAKE_PROFIT" → x < 0 →
      (if r = "STOP_LOSS" ∨ x < 0 then TradeStatus.CLOSED_LOSS
       else if r = "TAKE_PROFIT" ∨ x > 0 then TradeStatus.CLOSED_PROFIT
       else TradeStatus.CLOSED_MANUAL) = TradeStatus.CLOSED_LOSS) ∧
    (r ≠ "STOP_LOSS" → r ≠ "TAKE_PROFIT" →
      ((0 < x →
        (if r = "STOP_LOSS" ∨ x < 0 then TradeStatus.CLOSED_LOSS
         else if r = "TAKE_PROFIT" ∨ x > 0 then TradeStatus.CLOSED_PROFIT
         else TradeStatus.CLOSED_MANUAL) = TradeStatus.CLOSED_PROFIT) ∧
       (x < 0 →
        (if r = "STOP_LOSS" ∨ x < 0 then TradeStatus.CLOSED_LOSS
         else if r = "TAKE_PROFIT" ∨ x > 0 then TradeStatus.CLOSED_PROFIT
         else TradeStatus.CLOSED_MANUAL) = TradeStatus.CLOSED_LOSS) ∧
       (x = 0 →
        (if r = "STOP_LOSS" ∨ x < 0 then TradeStatus.CLOSED_LOSS
         else if r = "TAKE_PROFIT" ∨ x > 0 then TradeStatus.CLOSED_PROFIT
         else TradeStatus.CLOSED_MANUAL) = TradeStatus.CLOSED_MANUAL))) := by
  refine ⟨?_, ?_, ?_, ?_⟩
  · intro hr
    rw [if_pos (Or.inl hr)]
  · intro hr hx
    have h1 : ¬ (r = "STOP_LOSS" ∨ x < 0) := by
      rintro (hc | hc)
      · rw [hr] at hc
        exact str_tp_ne_sl hc
      · linarith
    rw [if_neg h1, if_pos (Or.inl hr)]
  · intro hr hx
    rw [if_pos (Or.inr hx)]
  · intro hns hnt
    refine ⟨?_, ?_, ?_⟩
    · intro hx
      have h1 : ¬ (r = "STOP_LOSS" ∨ x < 0) := by
        rintro (hc | hc)
        · exact hns hc
        · linarith
      rw [if_neg h1, if_pos (Or.inr hx)]
    · intro hx
      rw [if_pos (Or.inr hx)]
    · intro hx
      have h1 : ¬ (r = "STOP_LOSS" ∨ x < 0) := by
        rintro (hc | hc)
        · exact hns hc
        · linarith
      have h2 : ¬ (r = "TAKE_PROFIT" ∨ x > 0) := by
        rintro (hc | hc)
        · exact hnt hc
        · linarith
      rw [if_neg h1, if_neg h2]

/-- C3 (amended): every successful close computes the direction-aware
realized pnl, and assigns status by: STOP_LOSS always CLOSED_LOSS;
TAKE_PROFIT gives CLOSED_PROFIT unless the realized pnl is negative, in
which case CLOSED_LOSS (the pnl-sign check precedes the reason check); any
other reason gives CLOSED_PROFIT when pnl > 0, CLOSED_LOSS when pnl < 0 and
CLOSED_MANUAL when pnl = 0. -/
theorem C3_close_status (s : PTState) (tk : String) (xp : ℚ) (r : String) (trade : Trade)
    (h : lookupT tk s.open_trades = some trade) :
    ∃ t, (close_trade s tk xp r).1 = some t ∧
      t.pnl = (if trade.direction = "BUY" then round2 ((xp - trade.entry_price) * trade.quantity)
               else round2 ((trade.entry_price - xp) * trade.quantity)) ∧
      (r = "STOP_LOSS" → t.status = TradeStatus.CLOSED_LOSS) ∧
      (r = "TAKE_PROFIT" → 0 ≤ t.pnl → t.status = TradeStatus.CLOSED_PROFIT) ∧
      (r = "TAKE_PROFIT" → t.pnl < 0 → t.status = TradeStatus.CLOSED_LOSS) ∧
      (r ≠ "STOP_LOSS" → r ≠ "TAKE_PROFIT" →
        (0 < t.pnl → t.status = TradeStatus.CLOSED_PROFIT) ∧
        (t.pnl < 0 → t.status = TradeStatus.CLOSED_LOSS) ∧
        (t.pnl = 0 → t.status = TradeStatus.CLOSED_MANUAL)) := by
  obtain ⟨c1, c2, c3, c4⟩ := close_status_spec r
    (if trade.direction = "BUY" then round2 ((xp - trade.entry_price) * trade.quantity)
     else round2 ((trade.entry_price - xp) * trade.quantity))
  simp only [close_trade, h]
  exact ⟨_, rfl, rfl, c1, c2, c3, c4⟩

/-- C3 (counterexample): closing the concrete open LONG (entry 100) at exit
price 90 with reason TAKE_PROFIT yields realized pnl -100 and status
CLOSED_LOSS, not the CLOSED_PROFIT the claim assigns to every TAKE_PROFIT
close. -/
theorem C3_counterexample :
    (close_trade sLong "A" 90 "TAKE_PROFIT").1.map Trade.status
      = some TradeStatus.CLOSED_LOSS ∧
    (close_trade sLong "A" 90 "TAKE_PROFIT").1.map Trade.pnl = some (-100) := by
  constructor <;>
    norm_num [close_trade, lookupT, sLong, tLong, round2, rnd]

/-- C3 (witness): a manual close of the concrete LONG at 105 realizes
pnl 50 and is labeled CLOSED_PROFIT per the amended policy. -/
theorem C3_witness :
    (close_trade sLong "A" 105 "MANUAL").1.map Trade.status
      = some TradeStatus.CLOSED_PROFIT := by
  obtain ⟨t, ht, hpnl, _, _, _, hother⟩ :=
    C3_close_status sLong "A" 105 "MANUAL" tLong (by norm_num [sLong, lookupT])
  rw [ht]
  have hp : t.pnl = 50 := by
    rw [hpnl]
    norm_num [tLong, round2, rnd]
  have hs := (hother str_man_ne_sl str_man_ne_tp).1 (by rw [hp]; norm_num)
  simp [hs]

/-- C4 (amended): open_trade first replaces a falsy investment_amount (None
or 0) by the 1000 default; with the effective amount it fails on a
duplicate OPEN position, then on insufficient capital, then on zero
computed quantity, and otherwise succeeds, debiting current_capital by
quantity times entry_price and appending a new OPEN position to the history
and the OPEN index. -/
theorem C4_open_contract (s : PTState) (tk : String) (e sl tp : ℚ) (d : String)
    (inv : Option ℚ) :
    ((lookupT tk s.open_trades).isSome → open_trade s tk e sl tp d inv = (none, s)) ∧
    ((lookupT tk s.open_trades).isSome = false →
      effectiveInvestment inv > s.current_capital →
      open_trade s tk e sl tp d inv = (none, s)) ∧
    ((lookupT tk s.open_trades).isSome = false →
      ¬ effectiveInvestment inv > s.current_capital →
      pyInt (effectiveInvestment inv / e) < 1 →
      open_trade s tk e sl tp d inv = (none, s)) ∧
    ((lookupT tk s.open_trades).isSome = false →
      ¬ effectiveInvestment inv > s.current_capital →
      1 ≤ pyInt (effectiveInvestment inv / e) →
      ∃ t, (open_trade s tk e sl tp d inv).1 = some t ∧
        t.status = TradeStatus.OPEN ∧
        t.quantity = pyInt (effectiveInvestment inv / e) ∧
        (open_trade s tk e sl tp d inv).2.current_capital
          = s.current_capital - (pyInt (effectiveInvestment inv / e) : ℚ) * e ∧
        (open_trade s tk e sl tp d inv).2.trades = s.trades ++ [t] ∧
        (open_trade s tk e sl tp d inv).2.open_trades = s.open_trades ++ [(tk, t)]) := by
  refine ⟨?_, ?_, ?_, ?_⟩
  · intro h1
    simp only [open_trade, if_pos h1]
  · intro h0 h2
    simp only [open_trade]
    rw [if_neg (by simp [h0]), if_pos h2]
  · intro h0 h2 h3
    simp only [open_trade]
    rw [if_neg (by simp [h0]), if_neg h2, if_pos (by omega)]
  · intro h0 h2 h3
    simp only [open_trade]
    rw [if_neg (by simp [h0]), if_neg h2, if_neg (by omega)]
    exact ⟨_, rfl, rfl, rfl, rfl, rfl, rfl⟩

/-- C4 (counterexample): open with investment_amount = 0 on a fresh ledger
with entry price 100: floor(0 / 100) = 0 < 1, so the claim requires a
ZeroQuantity failure, but the call succeeds because the falsy 0 is replaced
by the 1000 default before any check. -/
theorem C4_counterexample :
    pyInt ((0 : ℚ) / 100) < 1 ∧
    (open_trade (initState 100000) "A" 100 90 120 "BUY" (some 0)).1.isSome = true := by
  constructor
  · norm_num [pyInt]
  · norm_num [open_trade, initState, lookupT, effectiveInvestment, default_trade_amount, pyInt]

/-- C4 (witness): the success clause of the amended contract instantiated on
a fresh ledger: open at 100 with 1000 debits exactly quantity 10 times 100. -/
theorem C4_witness :
    (lookupT "A" (initState 100000).open_trades).isSome = false ∧
    ¬ effectiveInvestment (some 1000) > (initState 100000).current_capital ∧
    1 ≤ pyInt (effectiveInvestment (some 1000) / 100) ∧
    (open_trade (initState 100000) "A" 100 90 120 "BUY" (some 1000)).2.current_capital
      = (initState 100000).current_capital
        - (pyInt (effectiveInvestment (some 1000) / 100) : ℚ) * 100 := by
  have h0 : (lookupT "A" (initState 100000).open_trades).isSome = false := by
    norm_num [initState, lookupT]
  have h2 : ¬ effectiveInvestment (some 1000) > (initState 100000).current_capital := by
    norm_num [effectiveInvestment, initState]
  have h3 : 1 ≤ pyInt (effectiveInvestment (some 1000) / 100) := by
    norm_num [effectiveInvestment, pyInt]
  obtain ⟨t, _, _, _, hcap, _, _⟩ :=
    (C4_open_contract (initState 100000) "A" 100 90 120 "BUY" (some 1000)).2.2.2 h0 h2 h3
  exact ⟨h0, h2, h3, hcap⟩

/-- C5 (amended): updatePrice on an OPEN LONG closes with reason STOP_LOSS
whenever the new price is at or below stop_loss, and with reason TAKE_PROFIT
whenever it is at or above take_profit and not also at or below stop_loss
(the stop-loss branch is checked first, so it wins when degenerate
thresholds make both trigger at once); SHORT uses the mirrored comparisons
with the mirrored precedence. -/
theorem C5_exit_triggers (s : PTState) (k : String) (p : ℚ) (trade : Trade)
    (h : lookupT k s.open_trades = some trade) :
    (trade.direction = "BUY" →
      (p ≤ trade.stop_loss →
        update_trade_price s k p
          = close_trade (writeTrade s k (markPrice trade p)) k p "STOP_LOSS") ∧
      (¬ p ≤ trade.stop_loss → p ≥ trade.take_profit →
        update_trade_price s k p
          = close_trade (writeTrade s k (markPrice trade p)) k p "TAKE_PROFIT")) ∧
    (trade.direction ≠ "BUY" →
      (p ≥ trade.stop_loss →
        update_trade_price s k p
          = close_trade (writeTrade s k (markPrice trade p)) k p "STOP_LOSS") ∧
      (¬ p ≥ trade.stop_loss → p ≤ trade.take_profit →
        update_trade_price s k p
          = close_trade (writeTrade s k (markPrice trade p)) k p "TAKE_PROFIT")) := by
  have hd := markPrice_direction trade p
  have hsl := markPrice_stop_loss trade p
  have htp := markPrice_take_profit trade p
  simp only [update_trade_price, h]
  constructor
  · intro hbuy
    constructor
    · intro hp
      rw [if_pos (by rw [hd]; exact hbuy), if_pos (by rw [hsl]; exact hp)]
    · intro hp1 hp2
      rw [if_pos (by rw [hd]; exact hbuy), if_neg (by rw [hsl]; exact hp1),
        if_pos (by rw [htp]; exact hp2)]
  · intro hsell
    constructor
    · intro hp
      rw [if_neg (by rw [hd]; exact hsell), if_pos (by rw [hsl]; exact hp)]
    · intro hp1 hp2
      rw [if_neg (by rw [hd]; exact hsell), if_neg (by rw [hsl]; exact hp1),
        if_pos (by rw [htp]; exact hp2)]

/-- C5 (counterexample): a SHORT with stop_loss 90 below take_profit 110
(reachable by the open operation) updated to price 100: the price is at or
below take_profit, yet the position is closed by the stop-loss branch
(status CLOSED_LOSS at pnl 0), while a reason TAKE_PROFIT close at the same
price and state would be CLOSED_PROFIT: the update did not close with
reason TAKE_PROFIT as the claim requires. -/
theorem C5_counterexample :
    run 100000 [Op.openT "A" 100 90 110 "SELL" (some 1000)] = sShort ∧
    (100 : ℚ) ≤ tShort.take_profit ∧
    (update_trade_price sShort "A" 100).1.map Trade.status = some TradeStatus.CLOSED_LOSS ∧
    (close_trade sShort "A" 100 "TAKE_PROFIT").1.map Trade.status
      = some TradeStatus.CLOSED_PROFIT := by
  refine ⟨?_, ?_, ?_, ?_⟩
  · norm_num [run, List.foldl, applyOp, open_trade, initState, lookupT, effectiveInvestment,
      default_trade_amount, pyInt, round2, rnd, sShort, tShort]
  · norm_num [tShort]
  · norm_num [update_trade_price, lookupT, sShort, tShort, markPrice, writeTrade, close_trade,
      round2, rnd, str_sell_ne_buy]
  · norm_num [close_trade, lookupT, sShort, tShort, round2, rnd, str_tp_ne_sl, str_sell_ne_buy]

/-- C5 (witness): the spec scenario: the LONG at entry 100 with stop 95
updated to 94 goes through the stop-loss close: status CLOSED_LOSS,
realized pnl (94-100)*10 = -60, capital credited to 99940, and the ticker
gone from the OPEN index; the state is the one reached by the open
operation. -/
theorem C5_witness :
    run 100000 [Op.openT "A" 100 95 110 "BUY" (some 1000)] = sStop ∧
    update_trade_price sStop "A" 94
      = close_trade (writeTrade sStop "A" (markPrice tStop 94)) "A" 94 "STOP_LOSS" ∧
    (update_trade_price sStop "A" 94).1.map Trade.status = some TradeStatus.CLOSED_LOSS ∧
    (update_trade_price sStop "A" 94).1.map Trade.pnl = some (-60) ∧
    (update_trade_price sStop "A" 94).2.current_capital = 99940 ∧
    lookupT "A" (update_trade_price sStop "A" 94).2.open_trades = none := by
  have hlook : lookupT "A" sStop.open_trades = some tStop := by
    norm_num [sStop, lookupT]
  have heq := ((C5_exit_triggers sStop "A" 94 tStop hlook).1 rfl).1
    (by norm_num [tStop])
  refine ⟨?_, heq, ?_, ?_, ?_, ?_⟩
  · norm_num [run, List.foldl, applyOp, open_trade, initState, lookupT, effectiveInvestment,
      default_trade_amount, pyInt, round2, rnd, sStop, tStop]
  · rw [heq]
    norm_num [close_trade, writeTrade, markPrice, lookupT, sStop, tStop, round2, rnd]
  · rw [heq]
    norm_num [close_trade, writeTrade, markPrice, lookupT, sStop, tStop, round2, rnd]
  · rw [heq]
    norm_num [close_trade, writeTrade, markPrice, lookupT, sStop, tStop, round2, rnd]
  · rw [heq]
    norm_num [close_trade, writeTrade, markPrice, lookupT, sStop, tStop, round2, rnd,
      lookupT_filter_self]

/-- C2 (amended): when a volume spike is flagged, the 15-point bonus goes to
buy_score when buy_score is strictly larger than sell_score, and to
sell_score otherwise: on a tie (including any equal nonzero accumulators)
the bonus goes to sell_score, per the source's strict greater-than
comparison. -/
theorem C2_volume_bonus (ind : Indicators) (h : ind.volumeSpike = true) :
    ((scoresPre ind).1 > (scoresPre ind).2 →
      scores ind = ((scoresPre ind).1 + 15, (scoresPre ind).2)) ∧
    ((scoresPre ind).1 ≤ (scoresPre ind).2 →
      scores ind = ((scoresPre ind).1, (scoresPre ind).2 + 15)) := by
  constructor
  · intro hgt
    simp only [scores]
    rw [if_pos h, if_pos hgt]
  · intro hle
    simp only [scores]
    rw [if_pos h, if_neg (by omega)]

/-- C2 (counterexample): a snapshot with tied pre-volume accumulators
(15, 15) and a flagged spike: the claim routes the bonus to buy_score,
predicting (30, 15), but the scorer produces (15, 30): the tie goes to
sell. -/
theorem C2_counterexample :
    scoresPre exInd = (15, 15) ∧ exInd.volumeSpike = true ∧ scores exInd = (15, 30) := by
  refine ⟨?_, rfl, ?_⟩
  · norm_num [scoresPre, exInd, rsi_oversold, rsi_overbought]
  · norm_num [scores, scoresPre, exInd, rsi_oversold, rsi_overbought]

/-- C2 (witness): the amended rule instantiated on the tied snapshot: the
bonus lands on sell_score. -/
theorem C2_witness :
    scores exInd = ((scoresPre exInd).1, (scoresPre exInd).2 + 15) :=
  (C2_volume_bonus exInd rfl).2 (by norm_num [scoresPre, exInd, rsi_oversold, rsi_overbought])

/-- C6: when buy_score + sell_score = 0 the signal is HOLD at confidence 50;
otherwise confidence is 100 times the larger accumulator over the total,
and the leading side is classified STRONG at confidence at least 75, plain
at at least 55 and HOLD below that (a tie leads to HOLD since its
confidence is exactly 50). -/
theorem C6_confidence_direction (b s : ℕ) :
    (b + s = 0 → signalCore b s = (SignalType.HOLD, 50)) ∧
    (b + s ≠ 0 →
      (signalCore b s).2 = 100 * ((max b s : ℕ) : ℚ) / ((b : ℚ) + s) ∧
      (b > s → (signalCore b s).1
        = (if 100 * (b : ℚ) / ((b : ℚ) + s) ≥ 75 then SignalType.STRONG_BUY
           else if 100 * (b : ℚ) / ((b : ℚ) + s) ≥ 55 then SignalType.BUY
           else SignalType.HOLD)) ∧
      (s > b → (signalCore b s).1
        = (if 100 * (s : ℚ) / ((b : ℚ) + s) ≥ 75 then SignalType.STRONG_SELL
           else if 100 * (s : ℚ) / ((b : ℚ) + s) ≥ 55 then SignalType.SELL
           else SignalType.HOLD)) ∧
      (b = s → (signalCore b s).1 = SignalType.HOLD)) := by
  constructor
  · intro h0
    simp only [signalCore, if_pos h0]
  · intro h0
    have hcast : ((b + s : ℕ) : ℚ) = (b : ℚ) + s := by push_cast; ring
    have hs0 : 0 < b + s := Nat.pos_of_ne_zero h0
    have hpos : (0 : ℚ) < (b : ℚ) + s := by exact_mod_cast hs0
    by_cases hbs : b > s
    · have hmax : max b s = b := Nat.max_eq_left (le_of_lt hbs)
      have hconf : ((b : ℚ) / ((b + s : ℕ) : ℚ)) * 100 = 100 * (b : ℚ) / ((b : ℚ) + s) := by
        rw [hcast]; ring
      simp only [signalCore, if_neg h0, if_pos hbs]
      refine ⟨?_, ?_, ?_, ?_⟩
      · rw [hmax, hconf]
      · intro _
        rw [hconf]
      · intro hsb
        exact absurd hsb (by omega)
      · intro heq
        exact absurd heq (by omega)
    · have hmax : max b s = s := Nat.max_eq_right (Nat.le_of_not_lt hbs)
      have hconf : ((s : ℚ) / ((b + s : ℕ) : ℚ)) * 100 = 100 * (s : ℚ) / ((b : ℚ) + s) := by
        rw [hcast]; ring
      simp only [signalCore, if_neg h0, if_neg hbs]
      refine ⟨?_, ?_, ?_, ?_⟩
      · rw [hmax, hconf]
      · intro hgt
        exact absurd hgt (by omega)
      · intro _
        rw [hconf]
      · intro heq
        subst heq
        have hbne : (b : ℚ) ≠ 0 := by
          have hb : b ≠ 0 := by omega
          exact_mod_cast hb
        have h50 : ((b : ℚ) / ((b + b : ℕ) : ℚ)) * 100 = 50 := by
          push_cast
          rw [div_mul_eq_mul_div, div_eq_iff (by intro hz; apply hbne; linarith)]
          ring
        rw [h50, if_neg (by norm_num), if_neg (by norm_num)]

/-- C6 (witness): scores (20, 10): total 30, confidence 200/3, direction
BUY (at least 55 but below 75). -/
theorem C6_witness :
    (signalCore 20 10).1 = SignalType.BUY ∧ (signalCore 20 10).2 = 200 / 3 := by
  have h := (C6_confidence_direction 20 10).2 (by norm_num)
  constructor
  · rw [h.2.1 (by norm_num)]
    norm_num
  · rw [h.1]
    norm_num

theorem round1_ge_50 (x : ℚ) (h : 50 ≤ x) : 50 ≤ round1 x := by
  unfold round1
  rw [le_div_iff₀ (by norm_num : (0 : ℚ) < 10)]
  have h1 : (500 : ℤ) ≤ ⌊x * 10⌋ := Int.le_floor.mpr (by push_cast; linarith)
  have h3 : (500 : ℤ) ≤ rnd (x * 10) := le_trans h1 (floor_le_rnd (x * 10))
  have h4 : ((500 : ℤ) : ℚ) ≤ ((rnd (x * 10) : ℤ) : ℚ) := Int.cast_le.mpr h3
  push_cast at h4
  linarith

theorem round1_le_100 (x : ℚ) (h : x ≤ 100) : round1 x ≤ 100 := by
  unfold round1
  rw [div_le_iff₀ (by norm_num : (0 : ℚ) < 10)]
  have h1 : ⌈x * 10⌉ ≤ (1000 : ℤ) := Int.ceil_le.mpr (by push_cast; linarith)
  have h3 : rnd (x * 10) ≤ (1000 : ℤ) := le_trans (rnd_le_ceil (x * 10)) h1
  have h4 : ((rnd (x * 10) : ℤ) : ℚ) ≤ ((1000 : ℤ) : ℚ) := Int.cast_le.mpr h3
  push_cast at h4
  linarith

/-- C10: every confidence the scorer computes lies between 50 and 100
inclusive, equals 50 exactly when the accumulators tie (which subsumes the
zero-total case), and the rounded confidence stored on the Signal obeys the
same bounds. -/
theorem C10_confidence_bounds (b s : ℕ) :
    50 ≤ (signalCore b s).2 ∧ (signalCore b s).2 ≤ 100 ∧
    ((signalCore b s).2 = 50 ↔ b = s) ∧
    50 ≤ round1 (signalCore b s).2 ∧ round1 (signalCore b s).2 ≤ 100 := by
  have core : 50 ≤ (signalCore b s).2 ∧ (signalCore b s).2 ≤ 100 ∧
      ((signalCore b s).2 = 50 ↔ b = s) := by
    by_cases h0 : b + s = 0
    · simp only [signalCore, if_pos h0]
      refine ⟨by norm_num, by norm_num, ?_⟩
      constructor
      · intro _
        omega
      · intro _
        trivial
    · have hcast : ((b + s : ℕ) : ℚ) = (b : ℚ) + s := by push_cast; ring
      have hs0 : 0 < b + s := Nat.pos_of_ne_zero h0
      have hpos : (0 : ℚ) < (b : ℚ) + s := by exact_mod_cast hs0
      have hble : (0 : ℚ) ≤ b := by positivity
      have hsle : (0 : ℚ) ≤ s := by positivity
      by_cases hbs : b > s
      · have hlt : (s : ℚ) < b := by exact_mod_cast hbs
        simp only [signalCore, if_neg h0, if_pos hbs]
        have hconf : ((b : ℚ) / ((b + s : ℕ) : ℚ)) * 100 = 100 * (b : ℚ) / ((b : ℚ) + s) := by
          rw [hcast]; ring
        rw [hconf]
        have hgt50 : 50 < 100 * (b : ℚ) / ((b : ℚ) + s) := by
          rw [lt_div_iff₀ hpos]
          linarith
        refine ⟨le_of_lt hgt50, ?_, ?_⟩
        · rw [div_le_iff₀ hpos]
          linarith
        · constructor
          · intro hc
            linarith
          · intro heq
            exact absurd heq (by omega)
      · have hle : (b : ℚ) ≤ s := by
          have := Nat.le_of_not_lt hbs
          exact_mod_cast this
        simp only [signalCore, if_neg h0, if_neg hbs]
        have hconf : ((s : ℚ) / ((b + s : ℕ) : ℚ)) * 100 = 100 * (s : ℚ) / ((b : ℚ) + s) := by
          rw [hcast]; ring
        rw [hconf]
        refine ⟨?_, ?_, ?_⟩
        · rw [le_div_iff₀ hpos]
          linarith
        · rw [div_le_iff₀ hpos]
          linarith
        · rw [div_eq_iff (ne_of_gt hpos)]
          constructor
          · intro hc
            have : (b : ℚ) = s := by linarith
            exact_mod_cast this
          · intro heq
            subst heq
            ring
  exact ⟨core.1, core.2.1, core.2.2, round1_ge_50 _ core.1, round1_le_100 _ core.2.1⟩

/-- C10 (witness): the bounds instantiated at scores (20, 10). -/
theorem C10_witness :
    50 ≤ (signalCore 20 10).2 ∧ round1 (signalCore 20 10).2 ≤ 100 :=
  ⟨(C10_confidence_bounds 20 10).1, (C10_confidence_bounds 20 10).2.2.2.2⟩

/-- C7: the scorer returns absent exactly when the series has fewer than
sma_long (50) bars; with at least that many bars a Signal is always
produced. -/
theorem C7_absent_iff_short (tk : String) (df : List Bar) :
    generate_trading_signal tk df = none ↔ df.length < sma_long := by
  unfold generate_trading_signal
  by_cases h : df.length < sma_long
  · simp [calculate_all_indicators, h]
  · simp [calculate_all_indicators, h]

/-- C7 (witness): the empty series (0 bars) yields absent. -/
theorem C7_witness : generate_trading_signal "X" [] = none :=
  (C7_absent_iff_short "X" []).mpr (by norm_num [sma_long])

end EGX100
